import Mathlib

/-!
Shallow embedding of the cookiecutter cookie manager (Rust) in Lean 4,
together with proofs about its specification.

The embedding follows the Rust sources:
  * `src/cookie_db.rs`  — `CookieDB` and its query/mutation methods
  * `src/cookie.rs`     — `Cookie` and field formatting
  * `src/state.rs`      — `StatefulList` cursor movement
  * `src/tui.rs`        — search and deletion handlers of the TUI

External effects are made explicit: the outcome of an SQLite statement is a
`Bool` parameter, a `panic!`/`expect` is an `Except.error`, and a row fetched
from the database is a record of `Option` fields (a `None` field models a
column whose extraction failed).  Filesystem paths are modelled as strings.
-/

namespace Cookiecutter

/-! ## String helpers (byte/char level, executable) -/

/-- Lexicographic comparison of char lists, the order `Vec<String>::sort`
uses (restricted to the code points; agrees with the byte order on ASCII). -/
def listLe : List Char → List Char → Bool
  | [], _ => true
  | _ :: _, [] => false
  | a :: as, b :: bs => if a < b then true else if b < a then false else listLe as bs

/-- Lexicographic `≤` on strings. -/
def strLe (a b : String) : Bool := listLe a.data b.data

/-- Insert a string into a sorted list of strings. -/
def insertStr (a : String) : List String → List String
  | [] => [a]
  | b :: t => if strLe a b then a :: b :: t else b :: insertStr a t

/-- Insertion sort on strings; models `Vec<String>::sort()`. -/
def sortStrings : List String → List String
  | [] => []
  | a :: t => insertStr a (sortStrings t)

/-- Remove consecutive duplicates; models `Vec::dedup()`. -/
def dedupConsec : List String → List String
  | [] => []
  | [a] => [a]
  | a :: b :: t => if a = b then dedupConsec (b :: t) else a :: dedupConsec (b :: t)

/-- Does the second char list start with the first one? -/
def charsStartWith : List Char → List Char → Bool
  | [], _ => true
  | _ :: _, [] => false
  | a :: q, b :: s => a = b && charsStartWith q s

/-- Does the first char list contain the second one as a contiguous run? -/
def charsHaveInfix : List Char → List Char → Bool
  | [], q => charsStartWith q []
  | a :: t, q => charsStartWith q (a :: t) || charsHaveInfix t q

/-- Substring containment; models Rust `str::contains` (case-sensitive). -/
def strContainsSub (s q : String) : Bool := charsHaveInfix s.data q.data

/-- Emptiness of a string; models Rust `str::is_empty`. -/
def strIsEmpty (s : String) : Bool := s.data.isEmpty

/-- Split a char list at every occurrence of a separator char. -/
def splitOnChar (sep : Char) : List Char → List (List Char)
  | [] => [[]]
  | c :: t =>
    let r := splitOnChar sep t
    if c = sep then [] :: r
    else
      match r with
      | [] => [[c]]
      | h :: rt => (c :: h) :: rt

/-- Split a string at a separator char; models `str::split` with a
one-char pattern. -/
def strSplitOn (s : String) (sep : Char) : List String :=
  (splitOnChar sep s.data).map (fun l => String.mk l)

/-- Join strings with a separator; models `Vec::join` / intercalation. -/
def joinWith (sep : String) : List String → String
  | [] => ""
  | [a] => a
  | a :: t => a ++ sep ++ joinWith sep t

/-- Replace every occurrence of `pat` (non-overlapping, left to right) by
`sub`; fuel-indexed so that the recursion is structural.  With fuel at
least the length of the text this is Rust `str::replace`. -/
def replaceCharsFuel : Nat → List Char → List Char → List Char → List Char
  | 0, s, _, _ => s
  | _ + 1, [], _, _ => []
  | fuel + 1, c :: t, pat, sub =>
    if !pat.isEmpty && charsStartWith pat (c :: t) then
      sub ++ replaceCharsFuel fuel (List.drop pat.length (c :: t)) pat sub
    else
      c :: replaceCharsFuel fuel t pat sub

/-- Rust `str::replace`. -/
def strReplace (s pat sub : String) : String :=
  String.mk (replaceCharsFuel s.data.length s.data pat.data sub.data)

/-- Does a path string have a root component?  Models `Path::has_root`
for the Unix paths this program works on. -/
def hasRoot (p : String) : Bool := charsStartWith "/".data p.data

/-- Parent of a path: everything before the final component.  Models
`Path::parent().unwrap()` on an absolute path with at least two components. -/
def parentPath (p : String) : String :=
  joinWith "/" ((strSplitOn p '/').dropLast)

/-! ## Data model (`src/cookie_db.rs`, `src/cookie.rs`) -/

/-- Browser database flavour (`src/util.rs`, enum `DbType`). -/
inductive DbType
  | Chrome
  | Firefox
  | Unknown
deriving DecidableEq, Repr

/-- One normalized cookie record (`src/cookie.rs`, struct `Cookie`).
Bytes of `encrypted_value` are modelled as naturals. -/
structure Cookie where
  host : String
  name : String
  value : String
  path : String
  creation : Int
  expiry : Int
  last_access : Int
  http_only : Bool
  secure : Bool
  samesite : Int
  encrypted_value : List Nat
deriving DecidableEq, Repr

/-- One cookie store (`src/cookie_db.rs`, struct `CookieDB`).  The
filesystem path is modelled as a string. -/
structure CookieDB where
  path : String
  typing : DbType
  cookies : List Cookie
deriving DecidableEq, Repr

/-- Rust `impl PartialEq for CookieDB`: compares `path` and `typing`. -/
def cookieDBEq (a b : CookieDB) : Bool :=
  a.path == b.path && a.typing == b.typing

/-- Rust `impl PartialOrd/Ord for CookieDB`: delegates to the path order
and nothing else.  `pathCompare` stands for `PathBuf::cmp`. -/
def pathCompare (a b : String) : Ordering :=
  if a = b then Ordering.eq
  else if strLe a b then Ordering.lt else Ordering.gt

/-- Rust `CookieDB::cmp` (via `partial_cmp(...).unwrap()`). -/
def cookieDBCmp (a b : CookieDB) : Ordering := pathCompare a.path b.path

/-- Error raised by a failing SQLite statement (`rusqlite::Error`). -/
inductive DbErr
  | writeFailed
deriving DecidableEq, Repr

namespace CookieDB

/-- Rust `CookieDB::path_short`: for an absolute path, the parent directory
with the home directory replaced by `~`; otherwise the path itself.
`home` stands for the value of `get_home()`. -/
def path_short (db : CookieDB) (home : String) : String :=
  if hasRoot db.path then
    strReplace (parentPath db.path) home "~"
  else
    db.path

/-- Rust `CookieDB::get_unix_epoch`: convert a stored microsecond timestamp
to UNIX epoch seconds.  `Int.tdiv` is Rust's `/` on `i64` (truncation
toward zero). -/
def get_unix_epoch (db : CookieDB) (timestamp : Int) : Int :=
  if timestamp = 0 then
    0
  else if db.typing = DbType.Firefox then
    Int.tdiv timestamp 1000000
  else
    Int.tdiv timestamp 1000000 - 11644473600

/-- Rust `CookieDB::delete_from_domain`.  The result of the SQLite
`DELETE` statement is abstracted into `sqliteOk`; when it fails, the
function returns early with the error and the cookie list untouched
(the `?` operator on `conn.execute`).  The returned pair is the store
after the call together with the `Result` value. -/
def delete_from_domain (db : CookieDB) (domain name : String)
    (sqliteOk : Bool) : CookieDB × Option DbErr :=
  if !sqliteOk then
    (db, some DbErr.writeFailed)
  else if strIsEmpty name then
    ({ db with cookies := db.cookies.filter (fun c => c.host != domain) },
     none)
  else
    ({ db with cookies := db.cookies.filter (fun c =>
        if c.host == domain then c.name != name else true) },
     none)

/-- Rust `CookieDB::domains`: sorted, consecutive-deduplicated host list. -/
def domains (db : CookieDB) : List String :=
  dedupConsec (sortStrings (db.cookies.map (fun c => c.host)))

/-- Rust `CookieDB::cookies_for_domain`. -/
def cookies_for_domain (db : CookieDB) (domain : String) : List Cookie :=
  db.cookies.filter (fun c => c.host == domain)

/-- Rust `CookieDB::cookie_for_domain`. -/
def cookie_for_domain (db : CookieDB) (name domain : String) : Option Cookie :=
  db.cookies.find? (fun c => c.host == domain && c.name == name)

end CookieDB

/-! ## Loading rows (`CookieDB::load_cookies`) -/

/-- One raw SQLite row as fetched by the `SELECT` in `load_cookies`.
A field is `none` when the corresponding `row.get::<_, T>(i)` call would
return an `Err` (missing column or unparsable value). -/
structure RawRow where
  host : Option String
  name : Option String
  value : Option String
  path : Option String
  creation : Option Int
  expiry : Option Int
  last_access : Option Int
  http_only : Option Bool
  secure : Option Bool
  samesite : Option Int
  encrypted_value : Option (List Nat)
deriving DecidableEq, Repr

/-- The row-to-`Cookie` closure inside `load_cookies`: every required field
is `unwrap`ped — a single failing `row.get(..).unwrap()` is a panic that
aborts the whole load, modelled as `Except.error` — while `encrypted_value`
alone falls back to the empty byte vector (`unwrap_or(vec![])`). -/
def parse_row (db : CookieDB) (r : RawRow) : Except String Cookie :=
  match r.host, r.name, r.value, r.path, r.creation, r.expiry,
      r.last_access, r.http_only, r.secure, r.samesite with
  | some host, some name, some value, some path, some creation, some expiry,
      some last_access, some http_only, some secure, some samesite =>
    Except.ok {
      host := host
      name := name
      value := value
      path := path
      creation := db.get_unix_epoch creation
      expiry := db.get_unix_epoch expiry
      last_access := db.get_unix_epoch last_access
      http_only := http_only
      secure := secure
      samesite := samesite
      encrypted_value := r.encrypted_value.getD []
    }
  | _, _, _, _, _, _, _, _, _, _ =>
    Except.error "called unwrap on an Err value"

/-- Sequentially run a fallible function over a list, stopping at the
first failure and collecting the successes (an explicit `collect` over an
iterator of results). -/
def collectExcept {α β : Type} (f : α → Except String β) :
    List α → Except String (List β)
  | [] => Except.ok []
  | a :: t =>
    match f a with
    | Except.error e => Except.error e
    | Except.ok b =>
      match collectExcept f t with
      | Except.error e => Except.error e
      | Except.ok bs => Except.ok (b :: bs)

/-- Rust `CookieDB::load_cookies` over the fetched rows: convert every row
(aborting on the first failing required field) and replace the `cookies`
vector wholesale on success. -/
def load_cookies (db : CookieDB) (rows : List RawRow) :
    Except String CookieDB :=
  match collectExcept (parse_row db) rows with
  | Except.error e => Except.error e
  | Except.ok cs => Except.ok { db with cookies := cs }

/-- A row misses a required (non-encrypted) field. -/
def requiredMissing (r : RawRow) : Bool :=
  r.host.isNone || r.name.isNone || r.value.isNone || r.path.isNone ||
  r.creation.isNone || r.expiry.isNone || r.last_access.isNone ||
  r.http_only.isNone || r.secure.isNone || r.samesite.isNone

/-! ## Field formatting (`src/cookie.rs`) -/

/-- Replacement shown for an encrypted value (`config::ENCRYPTED_VALUE`). -/
def ENCRYPTED_VALUE : String := "********"

/-- The meta value accepted by `--fields` (`config::ALL_FIELDS`). -/
def ALL_FIELDS : String := "All"

/-- Keys of the `COOKIE_FIELDS` map (`src/config.rs`). -/
def COOKIE_FIELDS_KEYS : List String :=
  ["Host", "Name", "Value", "Path", "Creation", "Expiry", "LastAccess",
   "HttpOnly", "Secure", "SameSite"]

/-- Rust `Cookie::field_fmt`. -/
def field_fmt (color use_name : Bool) (name value : String) : String :=
  let output :=
    if use_name then
      if !color then name ++ ": "
      else "\x1b[97;1m" ++ name ++ ":\x1b[0m "
    else ""
  output ++ value

/-- The `SameSite` match inside `Cookie::fields_as_str`; a code outside
`{0, 1, 2}` hits `panic!("Unknown SameSite type")`. -/
def samesiteStr (s : Int) : Except String String :=
  if s = 2 then Except.ok "Strict"
  else if s = 1 then Except.ok "Lax"
  else if s = 0 then Except.ok "None"
  else Except.error "Unknown SameSite type"

/-- One arm of the field `match` in `Cookie::fields_as_str`.  `tsFmt`
stands for the external `chrono` rendering `Utc.timestamp(..)` used for
the three timestamp fields. -/
def formatField (c : Cookie) (use_name color : Bool) (tsFmt : Int → String)
    (f : String) : Except String String :=
  if f = "Host" then Except.ok (field_fmt color use_name "Host" c.host)
  else if f = "Name" then Except.ok (field_fmt color use_name "Name" c.name)
  else if f = "Value" then
    let has_enc := strIsEmpty c.value && !c.encrypted_value.isEmpty
    let val := if has_enc then ENCRYPTED_VALUE else c.value
    Except.ok (field_fmt color use_name "Value" val)
  else if f = "Path" then Except.ok (field_fmt color use_name "Path" c.path)
  else if f = "Creation" then
    Except.ok (field_fmt color use_name "Creation" (tsFmt c.creation))
  else if f = "Expiry" then
    Except.ok (field_fmt color use_name "Expiry" (tsFmt c.expiry))
  else if f = "LastAccess" then
    Except.ok (field_fmt color use_name "LastAccess" (tsFmt c.last_access))
  else if f = "HttpOnly" then
    Except.ok (field_fmt color use_name "HttpOnly" (toString c.http_only))
  else if f = "Secure" then
    Except.ok (field_fmt color use_name "Secure" (toString c.secure))
  else if f = "SameSite" then
    match samesiteStr c.samesite with
    | Except.error e => Except.error e
    | Except.ok samesite =>
      Except.ok (field_fmt color use_name "SameSite" samesite)
  else Except.error "Unknown cookie field"

/-- The per-key closure of `Cookie::fields_as_str`: a key absent from the
`--fields` selection yields the empty string, otherwise the field is
formatted (possibly panicking on `SameSite`). -/
def fieldOrSkip (c : Cookie) (fields : String) (use_name color : Bool)
    (tsFmt : Int → String) (f : String) : Except String String :=
  if !((strSplitOn fields ',').any (fun s => s == f || fields == ALL_FIELDS)) then
    Except.ok ""
  else
    formatField c use_name color tsFmt f

/-- Rust `Cookie::fields_as_str`: map every `COOKIE_FIELDS` key, drop the
empty entries, sort and join with newlines.  A `panic!` inside the map is
propagated as `Except.error`. -/
def fields_as_str (c : Cookie) (fields : String) (use_name color : Bool)
    (tsFmt : Int → String) : Except String String :=
  match collectExcept (fieldOrSkip c fields use_name color tsFmt)
      COOKIE_FIELDS_KEYS with
  | Except.error e => Except.error e
  | Except.ok values =>
    Except.ok (joinWith "\n" (sortStrings (values.filter (fun f => f != ""))))

/-! ## Stateful lists (`src/state.rs`) -/

/-- Rust `StatefulList<T>`: a list plus an optional cursor.  The cursor
field is the `selected()` index of the wrapped `ListState` (called
`status` at the use sites in `src/tui.rs`). -/
structure StatefulList (α : Type) where
  status : Option Nat
  items : List α
deriving Repr

/-- Rust `StatefulList::next`: advance the cursor with wraparound, or
select index 0 when nothing is selected. -/
def StatefulList.next {α : Type} (l : StatefulList α) : StatefulList α :=
  let i :=
    match l.status with
    | some i => if i ≥ l.items.length - 1 then 0 else i + 1
    | none => 0
  { l with status := some i }

/-- Rust `StatefulList.previous`: retreat the cursor with wraparound, or
select index 0 when nothing is selected. -/
def StatefulList.previous {α : Type} (l : StatefulList α) : StatefulList α :=
  let i :=
    match l.status with
    | some i => if i = 0 then l.items.length - 1 else i - 1
    | none => 0
  { l with status := some i }

/-! ## TUI state and handlers (`src/tui.rs`) -/

/-- Sentinel index (`config::NO_SELECTION`). -/
def NO_SELECTION : Nat := 9999999

/-- The active list level of the TUI. -/
inductive Selection
  | Profiles
  | Domains
  | Cookies
deriving DecidableEq, Repr

/-- Modelled from the spec: the `State` struct consumed by `src/tui.rs`
(its defining module is not among the sources; `src/state.rs` holds an
older revision of it).  Fields follow §3 "NavigationState" of the spec and
the use sites in `src/tui.rs`: the active `selection` level, a stateful
list per level, and the search session (`search_open`, `search_field`,
`search_matches`, `selected_match`). -/
structure TuiState where
  selection : Selection
  profiles : StatefulList String
  current_domains : StatefulList String
  current_cookies : StatefulList String
  search_matches : List Nat
  selected_match : Nat
  search_open : Bool
  search_field : String
deriving Repr

/-- Modelled from the spec: `State::selected_domain` (used but not defined
in the sources) returns the label at the domain-level cursor. -/
def TuiState.selected_domain (s : TuiState) : Option String :=
  match s.current_domains.status with
  | some i => s.current_domains.items.get? i
  | none => none

/-- Modelled from the spec: `State::selected_cookie` (used but not defined
in the sources) returns the label at the cookie-level cursor. -/
def TuiState.selected_cookie (s : TuiState) : Option String :=
  match s.current_cookies.status with
  | some i => s.current_cookies.items.get? i
  | none => none

/-- The `for (i,p) in items.iter().enumerate()` loop of `set_matches` and
of the `Selection::Profiles` arm of `handle_search_key`: collect (in
ascending order) the indices of the items containing the query. -/
def matchIndices (i : Nat) (q : String) : List String → List Nat
  | [] => []
  | p :: rest =>
    if strContainsSub p q then i :: matchIndices (i + 1) q rest
    else matchIndices (i + 1) q rest

/-- Rust `set_matches` (`src/tui.rs`): append all matching indices to the
accumulator and report whether it ended up non-empty. -/
def set_matches (items : List String) (q : String) (search_matches : List Nat) :
    List Nat × Bool :=
  let ms := search_matches ++ matchIndices 0 q items
  (ms, decide (ms.length ≠ 0))

/-- The `KeyCode::Enter` arm of `handle_search_key`: commit the query at
the active level.  The `Profiles` arm matches against the full
`path.to_string_lossy()` of each store, the other arms against the level's
item labels. -/
def commit_search (s : TuiState) (cookie_dbs : List CookieDB) : TuiState :=
  let query := s.search_field
  let s := { s with
    search_open := false
    search_matches := ([] : List Nat)
    search_field := "" }
  match s.selection with
  | Selection.Profiles =>
    let ms := matchIndices 0 query (cookie_dbs.map (fun p => p.path))
    let s := { s with search_matches := ms }
    if ms.length > 0 then
      { s with
        selected_match := 0
        profiles := { s.profiles with status := some (ms.getD 0 0) } }
    else s
  | Selection.Domains =>
    let (ms, found) := set_matches s.current_domains.items query []
    let s := { s with search_matches := ms }
    if found then
      { s with
        selected_match := 0
        current_domains := { s.current_domains with status := some (ms.getD 0 0) } }
    else s
  | Selection.Cookies =>
    let (ms, found) := set_matches s.current_cookies.items query []
    let s := { s with search_matches := ms }
    if found then
      { s with
        selected_match := 0
        current_cookies := { s.current_cookies with status := some (ms.getD 0 0) } }
    else s

/-- Rust `select_match_in_current_split`: re-apply the list index stored at
`selected_match`; an out-of-range `selected_match` is an `expect` panic. -/
def select_match_in_current_split (s : TuiState) : Except String TuiState :=
  match s.search_matches.get? s.selected_match with
  | none => Except.error "Invalid index specified for search_matches"
  | some list_idx =>
    match s.selection with
    | Selection.Profiles =>
      Except.ok { s with profiles := { s.profiles with status := some list_idx } }
    | Selection.Domains =>
      Except.ok { s with current_domains := { s.current_domains with status := some list_idx } }
    | Selection.Cookies =>
      Except.ok { s with current_cookies := { s.current_cookies with status := some list_idx } }

/-- The `KeyCode::Char('n')` arm of `handle_key`: advance `selected_match`
with wraparound and re-apply it; a no-op when there are no matches. -/
def press_n (s : TuiState) : Except String TuiState :=
  if s.search_matches.length > 0 then
    let s := { s with selected_match :=
      if s.selected_match ≠ s.search_matches.length - 1 then
        s.selected_match + 1
      else 0 }
    select_match_in_current_split s
  else Except.ok s

/-- The `KeyCode::Char('N')` arm of `handle_key`: retreat `selected_match`
with wraparound and re-apply it; a no-op when there are no matches. -/
def press_shift_n (s : TuiState) : Except String TuiState :=
  if s.search_matches.length > 0 then
    let s := { s with selected_match :=
      if s.selected_match ≠ 0 then
        s.selected_match - 1
      else s.search_matches.length - 1 }
    select_match_in_current_split s
  else Except.ok s

/-- Rust `delete_in_current_split` (`src/tui.rs`).  `sqliteOk` abstracts the
outcome of the underlying SQLite `DELETE`; the `.expect(..)` calls turn a
failing delete into a panic, modelled as `Except.error` with the panic
message.  On success the mutated store replaces the profile's entry and the
cursors are rebalanced exactly as in the source. -/
def delete_in_current_split (s : TuiState) (cookie_dbs : List CookieDB)
    (sqliteOk : Bool) : Except String (TuiState × List CookieDB) :=
  match s.profiles.status with
  | none => Except.ok (s, cookie_dbs)
  | some profile_idx =>
    match cookie_dbs.get? profile_idx with
    | none => Except.ok (s, cookie_dbs)
    | some cdb =>
      match s.selected_domain with
      | none => Except.ok (s, cookie_dbs)
      | some current_domain =>
        match s.selection with
        | Selection.Profiles => Except.ok (s, cookie_dbs)
        | Selection.Domains =>
          match cdb.delete_from_domain current_domain "" sqliteOk with
          | (_, some _) => Except.error "Failed to delete cookies from domain"
          | (cdb', none) =>
            let dbs' := cookie_dbs.set profile_idx cdb'
            if s.current_domains.items.length ≤ 1 then
              Except.ok
                ({ s with current_domains := { s.current_domains with status := none } },
                 dbs')
            else
              match s.current_domains.status with
              | none => Except.error "called unwrap on a None value"
              | some curr =>
                if curr ≠ 0 then
                  Except.ok
                    ({ s with current_domains := { s.current_domains with status := some (curr - 1) } },
                     dbs')
                else Except.ok (s, dbs')
        | Selection.Cookies =>
          match s.selected_cookie with
          | none => Except.ok (s, cookie_dbs)
          | some current_cookie =>
            match cdb.delete_from_domain current_domain current_cookie sqliteOk with
            | (_, some _) => Except.error "Failed to delete cookie"
            | (cdb', none) =>
              let dbs' := cookie_dbs.set profile_idx cdb'
              if s.current_cookies.items.length ≤ 1 then
                let s := { s with current_cookies := { s.current_cookies with status := none } }
                if s.current_domains.items.length ≤ 1 then
                  Except.ok
                    ({ s with current_domains := { s.current_domains with status := none } },
                     dbs')
                else Except.ok (s, dbs')
              else
                match s.current_cookies.status with
                | none => Except.error "called unwrap on a None value"
                | some curr =>
                  if curr ≠ 0 then
                    Except.ok
                      ({ s with current_cookies := { s.current_cookies with status := some (curr - 1) } },
                       dbs')
                  else Except.ok (s, dbs')

/-! ## Lemmas: the lexicographic string order -/

theorem listLe_total : ∀ a b : List Char, listLe a b = true ∨ listLe b a = true
  | [], _ => Or.inl rfl
  | _ :: _, [] => Or.inr rfl
  | a :: as, b :: bs => by
    by_cases hab : a < b
    · left
      simp [listLe, hab]
    · by_cases hba : b < a
      · right
        simp [listLe, hba]
      · have hbase := listLe_total as bs
        rcases hbase with h | h
        · left
          simp [listLe, hab, hba, h]
        · right
          simp [listLe, hab, hba, h]

theorem listLe_trans : ∀ {a b c : List Char},
    listLe a b = true → listLe b c = true → listLe a c = true
  | [], _, _, _, _ => rfl
  | _ :: _, [], _, hab, _ => by simp [listLe] at hab
  | _ :: _, _ :: _, [], _, hbc => by simp [listLe] at hbc
  | a :: as, b :: bs, c :: cs, hab, hbc => by
    simp only [listLe] at hab hbc ⊢
    by_cases h1 : a < b
    · by_cases h2 : b < c
      · rw [if_pos (lt_trans h1 h2)]
      · by_cases h3 : c < b
        · rw [if_neg h2, if_pos h3] at hbc
          exact absurd hbc (by simp)
        · have hbceq : b = c := le_antisymm (not_lt.mp h3) (not_lt.mp h2)
          subst hbceq
          rw [if_pos h1]
    · by_cases h1' : b < a
      · rw [if_neg h1, if_pos h1'] at hab
        exact absurd hab (by simp)
      · have hEq : a = b := le_antisymm (not_lt.mp h1') (not_lt.mp h1)
        subst hEq
        rw [if_neg h1, if_neg h1'] at hab
        by_cases h2 : a < c
        · rw [if_pos h2]
        · by_cases h3 : c < a
          · rw [if_neg h2, if_pos h3] at hbc
            exact absurd hbc (by simp)
          · rw [if_neg h2, if_neg h3] at hbc ⊢
            exact listLe_trans hab hbc

theorem listLe_antisymm : ∀ {a b : List Char},
    listLe a b = true → listLe b a = true → a = b
  | [], [], _, _ => rfl
  | [], _ :: _, _, hba => by simp [listLe] at hba
  | _ :: _, [], hab, _ => by simp [listLe] at hab
  | a :: as, b :: bs, hab, hba => by
    simp only [listLe] at hab hba
    by_cases h1 : a < b
    · simp [h1, asymm h1] at hba
    · by_cases h2 : b < a
      · simp [h1, h2] at hab
      · have hEq : a = b := le_antisymm (not_lt.mp h2) (not_lt.mp h1)
        subst hEq
        simp [h1] at hab hba
        rw [listLe_antisymm hab hba]

theorem strLe_total (a b : String) : strLe a b = true ∨ strLe b a = true :=
  listLe_total a.data b.data

theorem strLe_trans {a b c : String} (hab : strLe a b = true)
    (hbc : strLe b c = true) : strLe a c = true :=
  listLe_trans hab hbc

theorem strLe_antisymm {a b : String} (hab : strLe a b = true)
    (hba : strLe b a = true) : a = b :=
  String.ext (listLe_antisymm hab hba)

/-! ## Lemmas: sorting and consecutive dedup -/

/-- Sortedness with respect to `strLe`. -/
def SortedLe (l : List String) : Prop :=
  l.Pairwise (fun a b => strLe a b = true)

theorem mem_insertStr (a : String) (l : List String) (x : String) :
    x ∈ insertStr a l ↔ x = a ∨ x ∈ l := by
  induction l with
  | nil => simp [insertStr]
  | cons b t ih =>
    by_cases h : strLe a b = true
    · simp [insertStr, h]
    · simp [insertStr, h, ih]
      tauto

theorem sorted_insertStr (a : String) :
    ∀ {l : List String}, SortedLe l → SortedLe (insertStr a l)
  | [], _ => by simp [insertStr, SortedLe]
  | b :: t, h => by
    by_cases hab : strLe a b = true
    · simp only [insertStr, hab, if_pos]
      refine List.Pairwise.cons ?_ h
      intro y hy
      rcases List.mem_cons.mp hy with rfl | hyt
      · exact hab
      · exact strLe_trans hab (List.rel_of_pairwise_cons h hyt)
    · simp only [insertStr, hab]
      rw [if_neg (by simp [hab])]
      refine List.Pairwise.cons ?_ (sorted_insertStr a (List.Pairwise.of_cons h))
      intro y hy
      rcases (mem_insertStr a t y).mp hy with hya | hyt
      · rcases strLe_total a b with hc | hc
        · exact absurd hc hab
        · exact hya ▸ hc
      · exact List.rel_of_pairwise_cons h hyt

theorem sorted_sortStrings (l : List String) : SortedLe (sortStrings l) := by
  induction l with
  | nil => simp [sortStrings, SortedLe]
  | cons a t ih => exact sorted_insertStr a ih

theorem mem_sortStrings (l : List String) (x : String) :
    x ∈ sortStrings l ↔ x ∈ l := by
  induction l with
  | nil => simp [sortStrings]
  | cons a t ih => simp [sortStrings, mem_insertStr, ih]

theorem mem_dedupConsec : ∀ (l : List String) (x : String),
    x ∈ dedupConsec l ↔ x ∈ l
  | [], x => by simp [dedupConsec]
  | [a], x => by simp [dedupConsec]
  | a :: b :: t, x => by
    by_cases hab : a = b
    · subst hab
      rw [dedupConsec, if_pos rfl, mem_dedupConsec (a :: t)]
      simp
    · rw [dedupConsec, if_neg hab]
      simp [mem_dedupConsec (b :: t)]

theorem nodup_dedupConsec : ∀ l : List String, SortedLe l → (dedupConsec l).Nodup
  | [], _ => by simp [dedupConsec]
  | [a], _ => by simp [dedupConsec]
  | a :: b :: t, h => by
    have htail : SortedLe (b :: t) := List.Pairwise.of_cons h
    by_cases hab : a = b
    · rw [dedupConsec, if_pos hab]
      exact nodup_dedupConsec (b :: t) htail
    · rw [dedupConsec, if_neg hab]
      refine List.nodup_cons.mpr ⟨?_, nodup_dedupConsec (b :: t) htail⟩
      intro hmem
      have hmem' : a ∈ b :: t := (mem_dedupConsec (b :: t) a).mp hmem
      rcases List.mem_cons.mp hmem' with rfl | hat
      · exact hab rfl
      · have h1 : strLe a b = true := List.rel_of_pairwise_cons h (List.mem_cons_self b t)
        have h2 : strLe b a = true := List.rel_of_pairwise_cons htail hat
        exact hab (strLe_antisymm h1 h2)

/-! ## Lemmas: domains of a store -/

theorem mem_domains (db : CookieDB) (x : String) :
    x ∈ db.domains ↔ x ∈ db.cookies.map (fun c => c.host) := by
  rw [CookieDB.domains, mem_dedupConsec, mem_sortStrings]

theorem nodup_domains (db : CookieDB) : db.domains.Nodup :=
  nodup_dedupConsec _ (sorted_sortStrings _)

theorem length_filter_ne : ∀ (l : List String) (d : String), l.Nodup →
    d ∈ l → (l.filter (fun x => x != d)).length = l.length - 1
  | [], d, _, hd => by simp at hd
  | a :: t, d, hnd, hd => by
    have hnd' := List.nodup_cons.mp hnd
    rcases List.mem_cons.mp hd with rfl | hdt
    · have : t.filter (fun x => x != d) = t := by
        refine List.filter_eq_self.mpr ?_
        intro x hx
        simp only [bne_iff_ne, ne_eq]
        intro hxa
        exact hnd'.1 (hxa ▸ hx)
      simp [this]
    · have ha : a ≠ d := by
        intro hEq
        exact hnd'.1 (hEq ▸ hdt)
      have ht : 1 ≤ t.length := List.length_pos.mpr (List.ne_nil_of_mem hdt)
      have hfc : (a :: t).filter (fun x => x != d) =
          a :: t.filter (fun x => x != d) := by
        rw [List.filter_cons]
        simp [bne_iff_ne, ha]
      rw [hfc, List.length_cons, length_filter_ne t d hnd'.2 hdt,
        List.length_cons]
      omega

/-! ## Lemmas: truncating division by one million -/

theorem tdiv_million_eq_zero_iff (t : Int) :
    Int.tdiv t 1000000 = 0 ↔ t.natAbs < 1000000 := by
  rw [← Int.natAbs_eq_zero, Int.natAbs_tdiv]
  have h : (1000000 : Int).natAbs = 1000000 := rfl
  rw [h]
  exact Nat.div_eq_zero_iff (by norm_num)

/-! ## Concrete fixtures used by witnesses and counterexamples -/

/-- A sample cookie (matches the first record of the spec's §8 scenario). -/
def cookieAX : Cookie := {
  host := "a.com"
  name := "x"
  value := "v"
  path := "/"
  creation := 1600000000
  expiry := 0
  last_access := 1600000000
  http_only := false
  secure := false
  samesite := 1
  encrypted_value := [] }

/-- A second cookie of the same domain. -/
def cookieAY : Cookie :=
  { cookieAX with name := "y", expiry := 1700000000 }

/-- A cookie of another domain. -/
def cookieBZ : Cookie :=
  { cookieAX with host := "b.com", name := "z" }

/-- A sample store holding the three cookies above. -/
def sampleDB : CookieDB := {
  path := "/x/Cookies"
  typing := DbType.Chrome
  cookies := [cookieAX, cookieAY, cookieBZ] }

/-! ## C2: delete_from_domain error behaviour -/

/-- C2: `delete_from_domain` reports an error exactly when the underlying
database write fails, and in that case the in-memory cookie list (the
whole store value) is left untouched, because the file is mutated before
the in-memory mirror. -/
theorem C2_delete_error_iff_write_fails (db : CookieDB)
    (domain name : String) (sqliteOk : Bool) :
    ((db.delete_from_domain domain name sqliteOk).2.isSome ↔ sqliteOk = false) ∧
    (sqliteOk = false → db.delete_from_domain domain name sqliteOk = (db, some DbErr.writeFailed)) := by
  constructor
  · cases sqliteOk
    · simp [CookieDB.delete_from_domain]
    · unfold CookieDB.delete_from_domain
      simp only [Bool.not_true, Bool.false_eq_true, if_false]
      split
      · simp
      · simp
  · intro h
    subst h
    simp [CookieDB.delete_from_domain]

/-- C2 witness: a concrete failing write leaves the concrete store as it
was and surfaces the error. -/
theorem C2_witness :
    sampleDB.delete_from_domain "a.com" "x" false = (sampleDB, some DbErr.writeFailed) ∧
    (sampleDB.delete_from_domain "a.com" "x" false).2.isSome :=
  ⟨(C2_delete_error_iff_write_fails sampleDB "a.com" "x" false).2 rfl, by decide⟩

/-! ## C3: timestamp normalization and zero -/

/-- C3 counterexample: the claim `normalize(t, variant) == 0 iff t == 0`
fails on the code: the nonzero stored timestamp `1` normalizes to `0`
under the Gecko-style (Firefox) conversion `t / 1_000_000`. -/
theorem C3_counterexample :
    ({ path := "p", typing := DbType.Firefox, cookies := [] } : CookieDB).get_unix_epoch 1 = 0 ∧
    (1 : Int) ≠ 0 := by
  constructor
  · rfl
  · decide

/-- C3 amended: `normalize(t, variant) = 0` holds iff `t = 0` (a stored 0
is preserved and never epoch-shifted), or `t` is a Gecko-style timestamp
smaller than one second (`|t| < 1_000_000`), or a Chromium-style timestamp
whose truncated second count equals the 1601-to-1970 offset
`11_644_473_600`. -/
theorem C3_normalize_zero_characterization (db : CookieDB) (t : Int) :
    db.get_unix_epoch t = 0 ↔
      (t = 0 ∨
       (db.typing = DbType.Firefox ∧ t.natAbs < 1000000) ∨
       (db.typing ≠ DbType.Firefox ∧ Int.tdiv t 1000000 = 11644473600)) := by
  unfold CookieDB.get_unix_epoch
  by_cases h0 : t = 0
  · simp [h0]
  · by_cases hf : db.typing = DbType.Firefox
    · simp [h0, hf, tdiv_million_eq_zero_iff]
    · rw [if_neg h0, if_neg hf, sub_eq_zero]
      simp [h0, hf]

/-! ## C8: store equality and ordering -/

/-- C8 counterexample: two stores with the same path but different
variants are not equal under the code's `PartialEq`, contradicting the
claim that equality is decided by the path alone. -/
theorem C8_counterexample :
    cookieDBEq
      { path := "p", typing := DbType.Firefox, cookies := [] }
      { path := "p", typing := DbType.Chrome, cookies := [] } = false ∧
    ({ path := "p", typing := DbType.Firefox, cookies := [] } : CookieDB).path =
      ({ path := "p", typing := DbType.Chrome, cookies := [] } : CookieDB).path := by
  constructor
  · rfl
  · rfl

/-- C8 amended: two stores are equal iff both their paths and their
variants are equal, while the ordering used to sort the store collection
compares the paths alone. -/
theorem C8_eq_and_ord (a b : CookieDB) :
    (cookieDBEq a b = true ↔ (a.path = b.path ∧ a.typing = b.typing)) ∧
    cookieDBCmp a b = pathCompare a.path b.path := by
  constructor
  · simp [cookieDBEq]
  · rfl

/-! ## C9: stateful list cursor movement -/

theorem next_status_mod {α : Type} (l : StatefulList α) (i : Nat)
    (h : l.status = some i) (hlen : i < l.items.length) :
    l.next.status = some ((i + 1) % l.items.length) := by
  unfold StatefulList.next
  rw [h]
  by_cases hge : i ≥ l.items.length - 1
  · have hi : i + 1 = l.items.length := by omega
    simp [hge, hi]
  · have hm : (i + 1) % l.items.length = i + 1 := Nat.mod_eq_of_lt (by omega)
    simp [hge, hm]

theorem previous_status_mod {α : Type} (l : StatefulList α) (i : Nat)
    (h : l.status = some i) (hlen : i < l.items.length) :
    l.previous.status = some ((i + (l.items.length - 1)) % l.items.length) := by
  unfold StatefulList.previous
  rw [h]
  by_cases h0 : i = 0
  · have hm : (0 + (l.items.length - 1)) % l.items.length = l.items.length - 1 := by
      rw [Nat.zero_add]
      exact Nat.mod_eq_of_lt (by omega)
    simp [h0, hm]
  · have hm : (i + (l.items.length - 1)) % l.items.length = i - 1 := by
      rw [Nat.mod_eq_sub_mod (by omega)]
      have he : i + (l.items.length - 1) - l.items.length = i - 1 := by omega
      rw [he]
      exact Nat.mod_eq_of_lt (by omega)
    simp [h0, hm]

theorem next_iter_status {α : Type} : ∀ (k : Nat) (l : StatefulList α) (i : Nat),
    l.status = some i → i < l.items.length →
    (StatefulList.next^[k] l).status = some ((i + k) % l.items.length) ∧
    (StatefulList.next^[k] l).items = l.items
  | 0, l, i, h, hlen => by
    simpa [h] using (Nat.mod_eq_of_lt hlen).symm
  | k + 1, l, i, h, hlen => by
    rw [Function.iterate_succ_apply]
    have hnext : l.next.status = some ((i + 1) % l.items.length) :=
      next_status_mod l i h hlen
    have hitems : l.next.items = l.items := rfl
    have hmod : (i + 1) % l.items.length < l.items.length :=
      Nat.mod_lt _ (by omega)
    have ih := next_iter_status k l.next ((i + 1) % l.items.length) hnext
      (by rw [hitems]; exact hmod)
    rw [hitems] at ih
    refine ⟨?_, ih.2⟩
    rw [ih.1, Nat.mod_add_mod]
    have he : i + 1 + k = i + (k + 1) := by omega
    rw [he]

theorem previous_iter_status {α : Type} : ∀ (k : Nat) (l : StatefulList α) (i : Nat),
    l.status = some i → i < l.items.length →
    (StatefulList.previous^[k] l).status =
      some ((i + k * (l.items.length - 1)) % l.items.length) ∧
    (StatefulList.previous^[k] l).items = l.items
  | 0, l, i, h, hlen => by
    simpa [h] using (Nat.mod_eq_of_lt hlen).symm
  | k + 1, l, i, h, hlen => by
    rw [Function.iterate_succ_apply]
    have hprev : l.previous.status = some ((i + (l.items.length - 1)) % l.items.length) :=
      previous_status_mod l i h hlen
    have hitems : l.previous.items = l.items := rfl
    have hmod : (i + (l.items.length - 1)) % l.items.length < l.items.length :=
      Nat.mod_lt _ (by omega)
    have ih := previous_iter_status k l.previous ((i + (l.items.length - 1)) % l.items.length)
      hprev (by rw [hitems]; exact hmod)
    rw [hitems] at ih
    refine ⟨?_, ih.2⟩
    rw [ih.1, Nat.mod_add_mod]
    have he : i + (l.items.length - 1) + k * (l.items.length - 1) =
        i + (k + 1) * (l.items.length - 1) := by ring
    rw [he]

/-- C9: on a non-empty stateful list, `next` on the last index wraps to 0,
`previous` on index 0 wraps to the last index, either call selects index 0
from an empty selection, and `len(items)` successive `next` calls (or
`previous` calls) return any validly selected cursor to its start. -/
theorem C9_stateful_list_cursor {α : Type} (l : StatefulList α)
    (hne : l.items ≠ []) :
    (l.status = some (l.items.length - 1) → l.next.status = some 0) ∧
    (l.status = some 0 → l.previous.status = some (l.items.length - 1)) ∧
    (l.status = none → l.next.status = some 0 ∧ l.previous.status = some 0) ∧
    (∀ i, l.status = some i → i < l.items.length →
      (StatefulList.next^[l.items.length] l).status = some i ∧
      (StatefulList.previous^[l.items.length] l).status = some i) := by
  have hpos : 0 < l.items.length := List.length_pos.mpr hne
  refine ⟨?_, ?_, ?_, ?_⟩
  · intro h
    unfold StatefulList.next
    rw [h]
    simp
  · intro h
    unfold StatefulList.previous
    rw [h]
    simp
  · intro h
    unfold StatefulList.next StatefulList.previous
    rw [h]
    simp
  · intro i hi hilen
    constructor
    · rw [(next_iter_status l.items.length l i hi hilen).1,
        Nat.add_mod_right, Nat.mod_eq_of_lt hilen]
    · rw [(previous_iter_status l.items.length l i hi hilen).1]
      have he : i + l.items.length * (l.items.length - 1) =
          i + (l.items.length - 1) * l.items.length := by ring
      rw [he, Nat.add_mul_mod_self_right, Nat.mod_eq_of_lt hilen]

/-- C9 witness: the cursor laws evaluated on a concrete three-element
list selected at index 1. -/
theorem C9_witness :
    (([ "a", "b", "c" ] : List String) ≠ []) ∧
    (StatefulList.next^[3] ({ status := some 1, items := ["a", "b", "c"] } : StatefulList String)).status = some 1 ∧
    (StatefulList.previous^[3] ({ status := some 1, items := ["a", "b", "c"] } : StatefulList String)).status = some 1 := by
  refine ⟨by decide, ?_⟩
  have h := C9_stateful_list_cursor ({ status := some 1, items := ["a", "b", "c"] } : StatefulList String) (by decide)
  have h2 := h.2.2.2 1 rfl (by decide)
  exact h2

/-! ## C1: delete_from_domain on success -/

theorem strIsEmpty_iff (s : String) : strIsEmpty s = true ↔ s = "" := by
  constructor
  · intro h
    refine String.ext ?_
    simpa [strIsEmpty, List.isEmpty_iff] using h
  · intro h
    subst h
    rfl

/-- C1: a successful `delete_from_domain(domain, name)` leaves the
in-memory records equal to the original list with exactly the matching
records removed (all records of the host when `name` is empty, otherwise
the records of the host carrying that name, matched case-sensitively and
exactly), every retained record unchanged and in the original order
(a sublist of the original); afterwards `cookies_for_domain` of a fully
deleted host is empty, `domains()` no longer contains it, and
`cookie_for_domain(name, domain)` is `none`. -/
theorem C1_delete_from_domain (db : CookieDB) (domain name : String)
    (db' : CookieDB)
    (h : db.delete_from_domain domain name true = (db', none)) :
    db'.cookies = db.cookies.filter
      (fun c => !(decide (c.host = domain ∧ (name = "" ∨ c.name = name)))) ∧
    db'.cookies.Sublist db.cookies ∧
    (name = "" →
      db'.cookies_for_domain domain = [] ∧ domain ∉ db'.domains) ∧
    db'.cookie_for_domain name domain = none := by
  unfold CookieDB.delete_from_domain at h
  simp only [Bool.not_true, Bool.false_eq_true, if_false] at h
  by_cases hemp : strIsEmpty name = true
  · have hname : name = "" := (strIsEmpty_iff name).mp hemp
    rw [if_pos hemp] at h
    have hc : db'.cookies = db.cookies.filter (fun c => c.host != domain) := by
      have := (Prod.mk.injEq _ _ _ _).mp h
      rw [← this.1]
    have hfe : db.cookies.filter (fun c => c.host != domain) =
        db.cookies.filter
          (fun c => !(decide (c.host = domain ∧ (name = "" ∨ c.name = name)))) := by
      refine List.filter_congr ?_
      intro c _
      by_cases hcd : c.host = domain <;> simp [hname, hcd]
    refine ⟨hc.trans hfe, ?_, ?_, ?_⟩
    · rw [hc]
      exact List.filter_sublist _
    · intro _
      constructor
      · rw [CookieDB.cookies_for_domain, hc, List.filter_filter]
        refine List.filter_eq_nil_iff.mpr ?_
        intro c _
        simp
      · intro hmem
        rw [mem_domains, hc] at hmem
        rcases List.mem_map.mp hmem with ⟨c, hcmem, hchost⟩
        have := (List.mem_filter.mp hcmem).2
        simp [bne_iff_ne] at this
        exact this hchost
    · rw [CookieDB.cookie_for_domain, hc]
      refine List.find?_eq_none.mpr ?_
      intro c hcmem
      have := (List.mem_filter.mp hcmem).2
      simp [bne_iff_ne] at this ⊢
      intro hcd
      exact absurd hcd this
  · have hname : name ≠ "" := by
      intro hn
      exact hemp ((strIsEmpty_iff name).mpr hn)
    rw [if_neg hemp] at h
    have hc : db'.cookies = db.cookies.filter
        (fun c => if c.host == domain then c.name != name else true) := by
      have := (Prod.mk.injEq _ _ _ _).mp h
      rw [← this.1]
    have hfe : db.cookies.filter
        (fun c => if c.host == domain then c.name != name else true) =
        db.cookies.filter
          (fun c => !(decide (c.host = domain ∧ (name = "" ∨ c.name = name)))) := by
      refine List.filter_congr ?_
      intro c _
      by_cases hcd : c.host = domain
      · by_cases hcn : c.name = name <;> simp [hcd, hcn, hname]
      · simp [hcd]
    refine ⟨hc.trans hfe, ?_, ?_, ?_⟩
    · rw [hc]
      exact List.filter_sublist _
    · intro hn
      exact absurd hn hname
    · rw [CookieDB.cookie_for_domain, hc]
      refine List.find?_eq_none.mpr ?_
      intro c hcmem
      have := (List.mem_filter.mp hcmem).2
      by_cases hcd : c.host = domain
      · simp [hcd] at this ⊢
        exact this
      · simp [hcd]

/-- C1 witness: deleting every `a.com` cookie from the concrete store
retains exactly the `b.com` record, empties `cookies_for_domain("a.com")`
and removes `a.com` from `domains()`. -/
theorem C1_witness :
    sampleDB.delete_from_domain "a.com" "" true =
      ({ sampleDB with cookies := [cookieBZ] }, none) ∧
    ({ sampleDB with cookies := [cookieBZ] } : CookieDB).cookies =
      sampleDB.cookies.filter
        (fun c => !(decide (c.host = "a.com" ∧ ("" = "" ∨ c.name = "")))) ∧
    ({ sampleDB with cookies := [cookieBZ] } : CookieDB).cookies_for_domain "a.com" = [] ∧
    "a.com" ∉ ({ sampleDB with cookies := [cookieBZ] } : CookieDB).domains ∧
    ({ sampleDB with cookies := [cookieBZ] } : CookieDB).cookie_for_domain "" "a.com" = none := by
  have h : sampleDB.delete_from_domain "a.com" "" true =
      ({ sampleDB with cookies := [cookieBZ] }, none) := by decide
  have hthm := C1_delete_from_domain sampleDB "a.com" ""
    { sampleDB with cookies := [cookieBZ] } h
  exact ⟨h, hthm.1, (hthm.2.2.1 rfl).1, (hthm.2.2.1 rfl).2, hthm.2.2.2⟩

/-! ## C7: loading rows -/

theorem isOk_ok {ε α : Type} (a : α) :
    (Except.ok a : Except ε α).isOk = true := rfl

theorem isOk_error {ε α : Type} (e : ε) :
    (Except.error e : Except ε α).isOk = false := rfl

theorem parse_row_spec (db : CookieDB) (r : RawRow) :
    ((parse_row db r).isOk = true ↔ requiredMissing r = false) ∧
    ∀ c, parse_row db r = Except.ok c →
      c.encrypted_value = r.encrypted_value.getD [] ∧
      r.samesite = some c.samesite := by
  unfold parse_row
  split
  · next hh hn hv hp hcr hex hla hho hse hss =>
    refine ⟨?_, ?_⟩
    · simp [isOk_ok, requiredMissing, hh, hn, hv, hp, hcr, hex, hla, hho,
        hse, hss]
    · intro c hc
      injection hc with hrec
      subst hrec
      exact ⟨rfl, hss⟩
  · next hcatch =>
    refine ⟨?_, by simp⟩
    cases hh : r.host with
    | none => simp [isOk_error, requiredMissing, hh]
    | some host =>
      cases hn : r.name with
      | none => simp [isOk_error, requiredMissing, hn]
      | some name =>
        cases hv : r.value with
        | none => simp [isOk_error, requiredMissing, hv]
        | some value =>
          cases hp : r.path with
          | none => simp [isOk_error, requiredMissing, hp]
          | some path =>
            cases hcr : r.creation with
            | none => simp [isOk_error, requiredMissing, hcr]
            | some creation =>
              cases hex : r.expiry with
              | none => simp [isOk_error, requiredMissing, hex]
              | some expiry =>
                cases hla : r.last_access with
                | none => simp [isOk_error, requiredMissing, hla]
                | some last_access =>
                  cases hho : r.http_only with
                  | none => simp [isOk_error, requiredMissing, hho]
                  | some http_only =>
                    cases hse : r.secure with
                    | none => simp [isOk_error, requiredMissing, hse]
                    | some secure =>
                      cases hss : r.samesite with
                      | none => simp [isOk_error, requiredMissing, hss]
                      | some samesite =>
                        exact (hcatch host name value path creation expiry
                          last_access http_only secure samesite
                          hh hn hv hp hcr hex hla hho hse hss).elim

theorem collectExcept_isOk {α β : Type} (f : α → Except String β) :
    ∀ l : List α,
      (collectExcept f l).isOk = true ↔ ∀ a ∈ l, (f a).isOk = true
  | [] => by simp [collectExcept, isOk_ok]
  | a :: t => by
    have ih := collectExcept_isOk f t
    rw [collectExcept]
    cases hfa : f a with
    | error e =>
      constructor
      · intro h
        simp [isOk_error] at h
      · intro hall
        have h1 := hall a (List.mem_cons_self a t)
        rw [hfa] at h1
        simp [isOk_error] at h1
    | ok b =>
      cases hct : collectExcept f t with
      | error e =>
        rw [hct] at ih
        constructor
        · intro h
          simp [isOk_error] at h
        · intro hall
          have h2 : ∀ x ∈ t, (f x).isOk = true :=
            fun x hx => hall x (List.mem_cons_of_mem a hx)
          have h3 := ih.mpr h2
          simp [isOk_error] at h3
      | ok bs =>
        rw [hct] at ih
        constructor
        · intro _ x hx
          rcases List.mem_cons.mp hx with rfl | hxt
          · rw [hfa]
            exact isOk_ok b
          · exact (ih.mp (isOk_ok bs)) x hxt
        · intro _
          exact isOk_ok _

theorem collectExcept_ok {α β : Type} (f : α → Except String β) :
    ∀ (l : List α) (bs : List β), collectExcept f l = Except.ok bs →
      bs.length = l.length ∧
      ∀ i a, l.get? i = some a →
        ∃ b, f a = Except.ok b ∧ bs.get? i = some b
  | [], bs, h => by
    rw [collectExcept] at h
    injection h with h
    subst h
    simp
  | a :: t, bs, h => by
    rw [collectExcept] at h
    cases hfa : f a with
    | error e =>
      rw [hfa] at h
      exact absurd h (by simp)
    | ok b =>
      rw [hfa] at h
      cases hct : collectExcept f t with
      | error e =>
        rw [hct] at h
        exact absurd h (by simp)
      | ok cs =>
        rw [hct] at h
        injection h with h
        subst h
        have ih := collectExcept_ok f t cs hct
        refine ⟨by simp [ih.1], ?_⟩
        intro i x hx
        cases i with
        | zero =>
          injection hx with hx
          subst hx
          exact ⟨b, hfa, rfl⟩
        | succ j =>
          exact ih.2 j x hx

/-- C7: during load, a row failing to parse any required (non-encrypted)
field makes the whole load fail — it is never silently skipped — and the
`encrypted_value` field alone defaults to the empty value when absent; on
success the records list is replaced wholesale by the parsed rows, in
order. -/
theorem C7_load_contract (db : CookieDB) (rows : List RawRow) :
    ((load_cookies db rows).isOk = true ↔
      ∀ r ∈ rows, requiredMissing r = false) ∧
    (∀ db', load_cookies db rows = Except.ok db' →
      db'.path = db.path ∧ db'.typing = db.typing ∧
      db'.cookies.length = rows.length ∧
      ∀ i r, rows.get? i = some r →
        ∃ c, parse_row db r = Except.ok c ∧ db'.cookies.get? i = some c) ∧
    (∀ r c, parse_row db r = Except.ok c → r.encrypted_value = none →
      c.encrypted_value = []) := by
  refine ⟨?_, ?_, ?_⟩
  · rw [load_cookies]
    have hiff := collectExcept_isOk (parse_row db) rows
    cases hce : collectExcept (parse_row db) rows with
    | error e =>
      rw [hce] at hiff
      constructor
      · intro h
        simp [isOk_error] at h
      · intro hall
        have h2 : ∀ r ∈ rows, (parse_row db r).isOk = true :=
          fun r hr => (parse_row_spec db r).1.mpr (hall r hr)
        have h3 := hiff.mpr h2
        simp [isOk_error] at h3
    | ok cs =>
      rw [hce] at hiff
      constructor
      · intro _ r hr
        exact (parse_row_spec db r).1.mp (hiff.mp (isOk_ok cs) r hr)
      · intro _
        exact isOk_ok _
  · intro db' h
    rw [load_cookies] at h
    cases hce : collectExcept (parse_row db) rows with
    | error e =>
      rw [hce] at h
      exact absurd h (by simp)
    | ok cs =>
      rw [hce] at h
      injection h with h
      subst h
      have hspec := collectExcept_ok (parse_row db) rows cs hce
      exact ⟨rfl, rfl, hspec.1, hspec.2⟩
  · intro r c h hev
    have := ((parse_row_spec db r).2 c h).1
    rw [this, hev]
    rfl

/-- A raw row with every field present (samesite deliberately `-1`, as
real Chromium schemas can contain). -/
def sampleRow : RawRow := {
  host := some "a.com"
  name := some "x"
  value := some "v"
  path := some "/"
  creation := some 13244473600000000
  expiry := some 0
  last_access := some 13244473600000000
  http_only := some false
  secure := some false
  samesite := some (-1)
  encrypted_value := none }

/-- C7 witness: a concrete load of one good row succeeds and replaces the
record list; dropping a required field from the same row fails the load. -/
theorem C7_witness :
    ((load_cookies sampleDB [sampleRow]).isOk = true ↔
      ∀ r ∈ [sampleRow], requiredMissing r = false) ∧
    (load_cookies sampleDB [{ sampleRow with secure := none }]).isOk = false := by
  refine ⟨(C7_load_contract sampleDB [sampleRow]).1, by decide⟩

/-! ## C10: the SameSite panic branch -/

theorem fieldOrSkip_all (c : Cookie) (use_name color : Bool)
    (tsFmt : Int → String) (f : String) :
    fieldOrSkip c ALL_FIELDS use_name color tsFmt f =
      formatField c use_name color tsFmt f := by
  rw [fieldOrSkip]
  have h : strSplitOn ALL_FIELDS ',' = ["All"] := rfl
  rw [h]
  simp [ALL_FIELDS]

/-- C10: for a cookie whose samesite code lies outside `{0, 1, 2}`,
formatting all fields (as the `cookies` subcommand and the TUI Fields view
do) hits `panic!("Unknown SameSite type")` instead of producing a string;
and the samesite value is stored raw at load time — `parse_row` copies it
with no normalization — so the panic branch is reachable from loaded
data. -/
theorem C10_samesite_panic (c : Cookie) (use_name color : Bool)
    (tsFmt : Int → String)
    (hs : ¬(c.samesite = 0 ∨ c.samesite = 1 ∨ c.samesite = 2)) :
    fields_as_str c ALL_FIELDS use_name color tsFmt =
      Except.error "Unknown SameSite type" ∧
    ∀ (db : CookieDB) (r : RawRow) (c' : Cookie),
      parse_row db r = Except.ok c' → r.samesite = some c'.samesite := by
  constructor
  · have h0 : c.samesite ≠ 0 := fun h => hs (Or.inl h)
    have h1 : c.samesite ≠ 1 := fun h => hs (Or.inr (Or.inl h))
    have h2 : c.samesite ≠ 2 := fun h => hs (Or.inr (Or.inr h))
    rw [fields_as_str]
    have hcoll : collectExcept (fieldOrSkip c ALL_FIELDS use_name color tsFmt)
        COOKIE_FIELDS_KEYS = Except.error "Unknown SameSite type" := by
      simp only [COOKIE_FIELDS_KEYS, collectExcept, fieldOrSkip_all]
      simp [formatField, samesiteStr, h0, h1, h2]
    rw [hcoll]
  · intro db r c' h
    exact ((parse_row_spec db r).2 c' h).2

/-- C10 witness: loading the concrete row with samesite `-1` succeeds and
keeps the raw `-1`, and formatting that loaded cookie panics. -/
theorem C10_witness :
    load_cookies sampleDB [sampleRow] =
      Except.ok { sampleDB with cookies :=
        [{ host := "a.com", name := "x", value := "v", path := "/",
           creation := 1600000000, expiry := 0, last_access := 1600000000,
           http_only := false, secure := false, samesite := -1,
           encrypted_value := [] }] } ∧
    fields_as_str
      { host := "a.com", name := "x", value := "v", path := "/",
        creation := 1600000000, expiry := 0, last_access := 1600000000,
        http_only := false, secure := false, samesite := -1,
        encrypted_value := [] }
      ALL_FIELDS true false (fun _ => "") =
      Except.error "Unknown SameSite type" := by
  constructor
  · rfl
  · exact (C10_samesite_panic _ true false (fun _ => "") (by decide)).1

/-! ## C5: search commit and match cycling -/

theorem matchIndices_shift (q : String) : ∀ (items : List String) (i : Nat),
    matchIndices i q items =
      ((List.range items.length).filter
        (fun j => strContainsSub (items.getD j "") q)).map (fun j => j + i)
  | [], i => by simp [matchIndices]
  | p :: rest, i => by
    rw [matchIndices]
    have ih := matchIndices_shift q rest (i + 1)
    rw [List.length_cons, List.range_succ_eq_map, List.filter_cons]
    simp only [List.getD_cons_zero, List.getD_cons_succ]
    have hfm : (List.filter (fun j => strContainsSub ((p :: rest).getD j "") q)
        (List.map Nat.succ (List.range rest.length))) =
        List.map Nat.succ (List.filter
          (fun j => strContainsSub (rest.getD j "") q) (List.range rest.length)) := by
      rw [List.map_filter]
      refine congrArg _ (List.filter_congr ?_)
      intro j _
      simp
    by_cases hp : strContainsSub p q = true
    · rw [if_pos hp, if_pos hp, hfm, ih, List.map_cons, List.map_map]
      simp only [Nat.zero_add]
      refine congrArg (List.cons i) (List.map_congr_left ?_)
      intro j _
      simp only [Function.comp_apply]
      omega
    · rw [if_neg hp, if_neg hp, hfm, ih, List.map_map]
      refine List.map_congr_left ?_
      intro j _
      simp only [Function.comp_apply]
      omega

theorem matchIndices_spec (q : String) (items : List String) :
    matchIndices 0 q items =
      (List.range items.length).filter
        (fun j => strContainsSub (items.getD j "") q) := by
  rw [matchIndices_shift]
  simp

theorem select_match_ok (s : TuiState)
    (h : s.selected_match < s.search_matches.length) :
    ∃ s', select_match_in_current_split s = Except.ok s' ∧
      s'.selected_match = s.selected_match ∧
      s'.search_matches = s.search_matches ∧
      s'.selection = s.selection := by
  rw [select_match_in_current_split, List.get?_eq_get h]
  cases hsel : s.selection with
  | Profiles => exact ⟨_, rfl, rfl, rfl, hsel.symm ▸ rfl⟩
  | Domains => exact ⟨_, rfl, rfl, rfl, hsel.symm ▸ rfl⟩
  | Cookies => exact ⟨_, rfl, rfl, rfl, hsel.symm ▸ rfl⟩

theorem press_n_spec (s : TuiState)
    (hm : s.selected_match < s.search_matches.length) :
    ∃ s', press_n s = Except.ok s' ∧
      s'.selected_match =
        (if s.selected_match ≠ s.search_matches.length - 1 then
          s.selected_match + 1 else 0) ∧
      s'.search_matches = s.search_matches ∧
      s'.selection = s.selection := by
  have hlen : s.search_matches.length > 0 := by omega
  rw [press_n, if_pos hlen]
  have hm' : (if s.selected_match ≠ s.search_matches.length - 1 then
      s.selected_match + 1 else 0) < s.search_matches.length := by
    by_cases h : s.selected_match = s.search_matches.length - 1
    · simp [h]
      omega
    · simp [h]
      omega
  obtain ⟨s', h1, h2, h3, h4⟩ := select_match_ok
    { s with selected_match :=
        if s.selected_match ≠ s.search_matches.length - 1 then
          s.selected_match + 1 else 0 } hm'
  exact ⟨s', h1, h2, h3, h4⟩

theorem press_shift_n_spec (s : TuiState)
    (hm : s.selected_match < s.search_matches.length) :
    ∃ s', press_shift_n s = Except.ok s' ∧
      s'.selected_match =
        (if s.selected_match ≠ 0 then s.selected_match - 1
          else s.search_matches.length - 1) ∧
      s'.search_matches = s.search_matches ∧
      s'.selection = s.selection := by
  have hlen : s.search_matches.length > 0 := by omega
  rw [press_shift_n, if_pos hlen]
  have hm' : (if s.selected_match ≠ 0 then s.selected_match - 1
      else s.search_matches.length - 1) < s.search_matches.length := by
    by_cases h : s.selected_match = 0
    · simp [h]
      omega
    · simp [h]
      omega
  obtain ⟨s', h1, h2, h3, h4⟩ := select_match_ok
    { s with selected_match :=
        if s.selected_match ≠ 0 then s.selected_match - 1
        else s.search_matches.length - 1 } hm'
  exact ⟨s', h1, h2, h3, h4⟩

theorem commit_search_domains (s : TuiState) (dbs : List CookieDB)
    (hsel : s.selection = Selection.Domains) :
    (commit_search s dbs).search_matches =
      (List.range s.current_domains.items.length).filter
        (fun j => strContainsSub (s.current_domains.items.getD j "")
          s.search_field) ∧
    ((commit_search s dbs).search_matches ≠ [] →
      (commit_search s dbs).selected_match = 0 ∧
      (commit_search s dbs).current_domains.status =
        some ((commit_search s dbs).search_matches.getD 0 0)) ∧
    ((commit_search s dbs).search_matches = [] →
      (commit_search s dbs).current_domains.status =
        s.current_domains.status) := by
  have hms := matchIndices_spec s.search_field s.current_domains.items
  rw [commit_search]
  simp only [hsel]
  by_cases hnil : matchIndices 0 s.search_field s.current_domains.items = []
  · have h0 : List.filter
        (fun j => strContainsSub (s.current_domains.items.getD j "") s.search_field)
        (List.range s.current_domains.items.length) = [] := by
      rw [← hms]
      exact hnil
    simp [set_matches, hnil, ← hms]
    intro a ha
    have h1 := List.filter_eq_nil_iff.mp h0 a (List.mem_range.mpr ha)
    simpa [List.getD_eq_getElem?_getD] using h1
  · have hlen : (matchIndices 0 s.search_field s.current_domains.items).length ≠ 0 := by
      simpa [List.length_eq_zero] using hnil
    simp [set_matches, hlen, ← hms, hnil]
    rw [hms]
    refine List.filter_congr ?_
    intro j _
    rw [List.getD_eq_getElem?_getD]

theorem commit_search_cookies (s : TuiState) (dbs : List CookieDB)
    (hsel : s.selection = Selection.Cookies) :
    (commit_search s dbs).search_matches =
      (List.range s.current_cookies.items.length).filter
        (fun j => strContainsSub (s.current_cookies.items.getD j "")
          s.search_field) ∧
    ((commit_search s dbs).search_matches ≠ [] →
      (commit_search s dbs).selected_match = 0 ∧
      (commit_search s dbs).current_cookies.status =
        some ((commit_search s dbs).search_matches.getD 0 0)) ∧
    ((commit_search s dbs).search_matches = [] →
      (commit_search s dbs).current_cookies.status =
        s.current_cookies.status) := by
  have hms := matchIndices_spec s.search_field s.current_cookies.items
  rw [commit_search]
  simp only [hsel]
  by_cases hnil : matchIndices 0 s.search_field s.current_cookies.items = []
  · have h0 : List.filter
        (fun j => strContainsSub (s.current_cookies.items.getD j "") s.search_field)
        (List.range s.current_cookies.items.length) = [] := by
      rw [← hms]
      exact hnil
    simp [set_matches, hnil, ← hms]
    intro a ha
    have h1 := List.filter_eq_nil_iff.mp h0 a (List.mem_range.mpr ha)
    simpa [List.getD_eq_getElem?_getD] using h1
  · have hlen : (matchIndices 0 s.search_field s.current_cookies.items).length ≠ 0 := by
      simpa [List.length_eq_zero] using hnil
    simp [set_matches, hlen, ← hms, hnil]
    rw [hms]
    refine List.filter_congr ?_
    intro j _
    rw [List.getD_eq_getElem?_getD]

theorem commit_search_profiles (s : TuiState) (dbs : List CookieDB)
    (hsel : s.selection = Selection.Profiles) :
    (commit_search s dbs).search_matches =
      (List.range dbs.length).filter
        (fun j => strContainsSub ((dbs.map (fun p => p.path)).getD j "")
          s.search_field) ∧
    ((commit_search s dbs).search_matches ≠ [] →
      (commit_search s dbs).selected_match = 0 ∧
      (commit_search s dbs).profiles.status =
        some ((commit_search s dbs).search_matches.getD 0 0)) ∧
    ((commit_search s dbs).search_matches = [] →
      (commit_search s dbs).profiles.status = s.profiles.status) := by
  have hms := matchIndices_spec s.search_field (dbs.map (fun p => p.path))
  rw [List.length_map] at hms
  rw [commit_search]
  simp only [hsel]
  by_cases hnil : matchIndices 0 s.search_field (dbs.map (fun p => p.path)) = []
  · have h0 : List.filter
        (fun j => strContainsSub ((dbs.map (fun p => p.path)).getD j "") s.search_field)
        (List.range dbs.length) = [] := by
      rw [← hms]
      exact hnil
    simp [hnil, ← hms]
    intro a ha
    have h1 := List.filter_eq_nil_iff.mp h0 a (List.mem_range.mpr ha)
    simpa [List.getD_eq_getElem?_getD, List.getElem?_map] using h1
  · have hlen : (matchIndices 0 s.search_field (dbs.map (fun p => p.path))).length > 0 := by
      cases hc : matchIndices 0 s.search_field (dbs.map (fun p => p.path)) with
      | nil => exact absurd hc hnil
      | cons a t => simp
    simp [hlen, ← hms, hnil]
    rw [hms]
    refine List.filter_congr ?_
    intro j _
    rw [List.getD_eq_getElem?_getD, List.getElem?_map]

/-- A store whose absolute path ends in a component that its displayed
label (the parent directory) does not contain. -/
def searchDB : CookieDB :=
  { path := "/x/Cookies", typing := DbType.Chrome, cookies := [] }

/-- A coherent profile-level search state over `searchDB`: the profiles
list holds the store's display label and the query is committed at the
`Profiles` level. -/
def searchProfilesState : TuiState := {
  selection := Selection.Profiles
  profiles := { status := some 0, items := [searchDB.path_short "/home/u"] }
  current_domains := { status := none, items := [] }
  current_cookies := { status := none, items := [] }
  search_matches := []
  selected_match := NO_SELECTION
  search_open := true
  search_field := "Cookies" }

/-- C5 counterexample: at the `Profiles` level, committing the query
`"Cookies"` stores index 0 in `matches`, although no profile label
contains the query — the code matches the store's full filesystem path,
not the displayed label, so `matches` is not the set of label-matching
indices that the claim promises. -/
theorem C5_counterexample :
    searchProfilesState.selection = Selection.Profiles ∧
    searchProfilesState.profiles.items = [searchDB.path_short "/home/u"] ∧
    (commit_search searchProfilesState [searchDB]).search_matches = [0] ∧
    (List.range searchProfilesState.profiles.items.length).filter
      (fun j => strContainsSub (searchProfilesState.profiles.items.getD j "")
        searchProfilesState.search_field) = [] := by
  refine ⟨rfl, rfl, by decide, by decide⟩

/-- C5 amended: committing a search with Enter stores in `matches` exactly
the ascending indices of the items containing the query as a
case-sensitive substring — the item labels at the `Domains` and `Cookies`
levels, but the stores' full filesystem paths (not the displayed labels)
at the `Profiles` level; when a match exists the match cursor is set to 0
and the level's selection moves to `matches[0]`; with no match the level's
cursor is unchanged; and from any in-range match cursor, `n` then `N` (or
`N` then `n`) returns the match cursor to its origin, both keys being
no-ops when `matches` is empty. -/
theorem C5_search_contract :
    (∀ (s : TuiState) (dbs : List CookieDB),
      s.selection = Selection.Domains →
      (commit_search s dbs).search_matches =
        (List.range s.current_domains.items.length).filter
          (fun j => strContainsSub (s.current_domains.items.getD j "")
            s.search_field) ∧
      ((commit_search s dbs).search_matches ≠ [] →
        (commit_search s dbs).selected_match = 0 ∧
        (commit_search s dbs).current_domains.status =
          some ((commit_search s dbs).search_matches.getD 0 0)) ∧
      ((commit_search s dbs).search_matches = [] →
        (commit_search s dbs).current_domains.status =
          s.current_domains.status)) ∧
    (∀ (s : TuiState) (dbs : List CookieDB),
      s.selection = Selection.Cookies →
      (commit_search s dbs).search_matches =
        (List.range s.current_cookies.items.length).filter
          (fun j => strContainsSub (s.current_cookies.items.getD j "")
            s.search_field) ∧
      ((commit_search s dbs).search_matches ≠ [] →
        (commit_search s dbs).selected_match = 0 ∧
        (commit_search s dbs).current_cookies.status =
          some ((commit_search s dbs).search_matches.getD 0 0)) ∧
      ((commit_search s dbs).search_matches = [] →
        (commit_search s dbs).current_cookies.status =
          s.current_cookies.status)) ∧
    (∀ (s : TuiState) (dbs : List CookieDB),
      s.selection = Selection.Profiles →
      (commit_search s dbs).search_matches =
        (List.range dbs.length).filter
          (fun j => strContainsSub ((dbs.map (fun p => p.path)).getD j "")
            s.search_field)) ∧
    (∀ s : TuiState, s.search_matches = [] →
      press_n s = Except.ok s ∧ press_shift_n s = Except.ok s) ∧
    (∀ s : TuiState, s.selected_match < s.search_matches.length →
      (∃ s1 s2, press_n s = Except.ok s1 ∧ press_shift_n s1 = Except.ok s2 ∧
        s2.selected_match = s.selected_match ∧
        s2.search_matches = s.search_matches) ∧
      (∃ s1 s2, press_shift_n s = Except.ok s1 ∧ press_n s1 = Except.ok s2 ∧
        s2.selected_match = s.selected_match ∧
        s2.search_matches = s.search_matches)) := by
  refine ⟨fun s dbs h => commit_search_domains s dbs h,
    fun s dbs h => commit_search_cookies s dbs h,
    fun s dbs h => (commit_search_profiles s dbs h).1, ?_, ?_⟩
  · intro s h
    constructor
    · rw [press_n, if_neg (by simp [h])]
    · rw [press_shift_n, if_neg (by simp [h])]
  · intro s hm
    constructor
    · obtain ⟨s1, h1, h1m, h1ms, _⟩ := press_n_spec s hm
      have hm1 : s1.selected_match < s1.search_matches.length := by
        rw [h1m, h1ms]
        by_cases h : s.selected_match = s.search_matches.length - 1
        · simp [h]
          omega
        · simp [h]
          omega
      obtain ⟨s2, h2, h2m, h2ms, _⟩ := press_shift_n_spec s1 hm1
      refine ⟨s1, s2, h1, h2, ?_, by rw [h2ms, h1ms]⟩
      rw [h2m, h1m, h1ms]
      by_cases h : s.selected_match = s.search_matches.length - 1
      · simp [h]
      · simp [h]
    · obtain ⟨s1, h1, h1m, h1ms, _⟩ := press_shift_n_spec s hm
      have hm1 : s1.selected_match < s1.search_matches.length := by
        rw [h1m, h1ms]
        by_cases h : s.selected_match = 0
        · simp [h]
          omega
        · simp [h]
          omega
      obtain ⟨s2, h2, h2m, h2ms, _⟩ := press_n_spec s1 hm1
      refine ⟨s1, s2, h1, h2, ?_, by rw [h2ms, h1ms]⟩
      rw [h2m, h1m, h1ms]
      by_cases h : s.selected_match = 0
      · simp [h]
      · simp [h]
        by_cases h2 : s.selected_match - 1 = s.search_matches.length - 1
        · simp [h2]
          omega
        · simp [h2]
          omega

/-- A coherent domain-level search state used to evaluate the amended
claim concretely. -/
def searchDomainsState : TuiState := { searchProfilesState with
  selection := Selection.Domains
  current_domains := { status := some 0, items := ["a.com", "b.com"] }
  search_field := "b" }

/-- A state holding committed matches, used to evaluate the `n`/`N`
cycle concretely. -/
def cycleState : TuiState := { searchDomainsState with
  search_open := false
  search_field := ""
  search_matches := [0, 1]
  selected_match := 1 }

/-- C5 witness: the amended claim evaluated on concrete states — the
committed matches at the Domains level equal the label-filter, and the
`n`/`N` cycle returns to the starting match cursor. -/
theorem C5_witness :
    (commit_search searchDomainsState []).search_matches =
      (List.range searchDomainsState.current_domains.items.length).filter
        (fun j => strContainsSub
          (searchDomainsState.current_domains.items.getD j "")
          searchDomainsState.search_field) ∧
    (∃ s1 s2, press_n cycleState = Except.ok s1 ∧
      press_shift_n s1 = Except.ok s2 ∧
      s2.selected_match = cycleState.selected_match ∧
      s2.search_matches = cycleState.search_matches) :=
  ⟨(C5_search_contract.1 searchDomainsState [] rfl).1,
    (C5_search_contract.2.2.2.2 cycleState (by decide)).1⟩

/-! ## C4: deletion keeps cursors in range -/

theorem get?_set_self {α : Type} (l : List α) (i : Nat) (a : α)
    (h : i < l.length) : (l.set i a).get? i = some a := by
  rw [List.get?_set_eq]
  have h2 : l.get? i = some (l.get ⟨i, h⟩) := List.get?_eq_get h
  rw [h2]
  rfl

theorem delete_all_result (db : CookieDB) (d : String) :
    db.delete_from_domain d "" true =
      ({ db with cookies := db.cookies.filter (fun c => c.host != d) },
       none) := rfl

theorem delete_named_result (db : CookieDB) (d n : String)
    (hn : n ≠ "") :
    db.delete_from_domain d n true =
      ({ db with cookies := db.cookies.filter (fun c =>
          if c.host == d then c.name != n else true) },
       none) := by
  have hne : strIsEmpty n = false := by
    cases hc : strIsEmpty n
    · rfl
    · exact absurd ((strIsEmpty_iff n).mp hc) hn
  rw [CookieDB.delete_from_domain]
  simp [hne]

theorem domains_delete_perm (db : CookieDB) (d : String) :
    ((db.delete_from_domain d "" true).1).domains.Perm
      (db.domains.filter (fun x => x != d)) := by
  rw [delete_all_result]
  refine (List.perm_ext_iff_of_nodup (nodup_domains _)
    ((nodup_domains db).filter _)).mpr ?_
  intro x
  rw [mem_domains, List.mem_filter, mem_domains]
  simp only [List.mem_map, List.mem_filter, bne_iff_ne, ne_eq]
  constructor
  · rintro ⟨c, ⟨hcmem, hchost⟩, hcx⟩
    exact ⟨⟨c, hcmem, hcx⟩, by rw [← hcx]; exact hchost⟩
  · rintro ⟨⟨c, hcmem, hcx⟩, hxd⟩
    exact ⟨c, ⟨hcmem, by rw [hcx]; exact hxd⟩, hcx⟩

theorem domains_delete_length (db : CookieDB) (d : String)
    (hmem : d ∈ db.domains) :
    ((db.delete_from_domain d "" true).1).domains.length =
      db.domains.length - 1 := by
  rw [(domains_delete_perm db d).length_eq]
  exact length_filter_ne _ _ (nodup_domains db) hmem

theorem map_name_filter (n : String) : ∀ l : List Cookie,
    (l.filter (fun c => c.name != n)).map (fun c => c.name) =
      (l.map (fun c => c.name)).filter (fun x => x != n)
  | [] => by simp
  | c :: t => by
    by_cases hc : c.name = n
    · simp [hc, map_name_filter n t]
    · simp [List.filter_cons, List.map_cons, bne_iff_ne, hc,
        map_name_filter n t]

theorem cookies_for_domain_after_delete (db : CookieDB) (d n : String)
    (hn : n ≠ "") :
    ((db.delete_from_domain d n true).1).cookies_for_domain d =
      (db.cookies_for_domain d).filter (fun c => c.name != n) := by
  rw [delete_named_result db d n hn]
  show (db.cookies.filter _).filter _ = (db.cookies.filter _).filter _
  rw [List.filter_filter, List.filter_filter]
  refine List.filter_congr ?_
  intro c _
  by_cases hcd : c.host = d
  · simp [hcd]
  · simp [hcd]

theorem names_after_delete (db : CookieDB) (d n : String) (hn : n ≠ "") :
    (((db.delete_from_domain d n true).1).cookies_for_domain d).map
        (fun c => c.name) =
      ((db.cookies_for_domain d).map (fun c => c.name)).filter
        (fun x => x != n) := by
  rw [cookies_for_domain_after_delete db d n hn, map_name_filter]

/-- C4 amended: after a deletion at the Domains or Cookies level — given
a coherent state whose cursors are in range and whose item lists are the
ones derived from the selected store, and provided the selected domain's
cookie names are pairwise distinct and the selected cookie's name is
nonempty (the spec's (domain, name)-keyed record model; without these
provisos `delete_from_domain` removes several rows at once while the
cursor logic steps back at most one, and the cursor can be left in
range of nothing) — the affected level's cursor is never left past the
end of the shrunk derived list: if the list became empty the cursor is
cleared, if the removed index was the last one the cursor steps back by
one, and deleting the sole remaining cookie of the sole remaining domain
clears both the domain and the cookie cursors. -/
theorem C4_deletion_cursor :
    (∀ (s : TuiState) (dbs : List CookieDB) (pIdx : Nat) (cdb : CookieDB)
      (curr : Nat) (d : String),
      s.selection = Selection.Domains →
      s.profiles.status = some pIdx →
      dbs.get? pIdx = some cdb →
      s.current_domains.items = cdb.domains →
      s.current_domains.status = some curr →
      s.current_domains.items.get? curr = some d →
      ∃ s' dbs', delete_in_current_split s dbs true = Except.ok (s', dbs') ∧
        dbs'.get? pIdx = some (cdb.delete_from_domain d "" true).1 ∧
        (((cdb.delete_from_domain d "" true).1).domains = [] →
          s'.current_domains.status = none) ∧
        (∀ j, s'.current_domains.status = some j →
          j < ((cdb.delete_from_domain d "" true).1).domains.length) ∧
        (curr = s.current_domains.items.length - 1 ∧
          1 < s.current_domains.items.length →
          s'.current_domains.status = some (curr - 1))) ∧
    (∀ (s : TuiState) (dbs : List CookieDB) (pIdx : Nat) (cdb : CookieDB)
      (dcurr curr : Nat) (d n : String),
      s.selection = Selection.Cookies →
      s.profiles.status = some pIdx →
      dbs.get? pIdx = some cdb →
      s.current_domains.status = some dcurr →
      s.current_domains.items.get? dcurr = some d →
      s.current_cookies.items =
        (cdb.cookies_for_domain d).map (fun c => c.name) →
      s.current_cookies.items.Nodup →
      s.current_cookies.status = some curr →
      s.current_cookies.items.get? curr = some n →
      n ≠ "" →
      ∃ s' dbs', delete_in_current_split s dbs true = Except.ok (s', dbs') ∧
        dbs'.get? pIdx = some (cdb.delete_from_domain d n true).1 ∧
        ((((cdb.delete_from_domain d n true).1).cookies_for_domain d) = [] →
          s'.current_cookies.status = none) ∧
        (∀ j, s'.current_cookies.status = some j →
          j < (((cdb.delete_from_domain d n true).1).cookies_for_domain d).length) ∧
        (curr = s.current_cookies.items.length - 1 ∧
          1 < s.current_cookies.items.length →
          s'.current_cookies.status = some (curr - 1)) ∧
        (s.current_cookies.items.length ≤ 1 ∧
          s.current_domains.items.length ≤ 1 →
          s'.current_cookies.status = none ∧
          s'.current_domains.status = none)) := by
  constructor
  · intro s dbs pIdx cdb curr d hsel hp hdbs hitems hst hget
    have hplt := (List.get?_eq_some.mp hdbs).1
    have hdbs2 : dbs[pIdx]? = some cdb := by
      rw [← List.get?_eq_getElem?]
      exact hdbs
    have hsd : s.selected_domain = some d := by
      simp only [TuiState.selected_domain, hst]
      exact hget
    have hdmem : d ∈ cdb.domains := by
      rw [← hitems]
      exact List.get?_mem hget
    have hcurrlt : curr < s.current_domains.items.length :=
      (List.get?_eq_some.mp hget).1
    have hlen' : ((cdb.delete_from_domain d "" true).1).domains.length =
        s.current_domains.items.length - 1 := by
      rw [domains_delete_length cdb d hdmem, hitems]
    by_cases hle : s.current_domains.items.length ≤ 1
    · refine ⟨{ s with current_domains :=
          { s.current_domains with status := none } },
        dbs.set pIdx (cdb.delete_from_domain d "" true).1, ?_, ?_, ?_, ?_, ?_⟩
      · simp [delete_in_current_split, hp, hdbs2, hsd, hsel,
          delete_all_result, hle]
      · exact get?_set_self dbs pIdx _ hplt
      · intro _
        rfl
      · intro j hj
        exact absurd hj (by simp)
      · intro hc
        omega
    · have hok : ¬ (curr = 0) ∨ curr = 0 := by tauto
      by_cases hcz : curr = 0
      · refine ⟨s, dbs.set pIdx (cdb.delete_from_domain d "" true).1,
          ?_, ?_, ?_, ?_, ?_⟩
        · simp [delete_in_current_split, hp, hdbs2, hsd, hsel,
            delete_all_result, hle, hst, hcz]
        · exact get?_set_self dbs pIdx _ hplt
        · intro he
          have : ((cdb.delete_from_domain d "" true).1).domains.length = 0 := by
            rw [he]
            rfl
          omega
        · intro j hj
          rw [hst] at hj
          injection hj with hj
          omega
        · intro hc
          omega
      · refine ⟨{ s with current_domains :=
            { s.current_domains with status := some (curr - 1) } },
          dbs.set pIdx (cdb.delete_from_domain d "" true).1,
          ?_, ?_, ?_, ?_, ?_⟩
        · simp [delete_in_current_split, hp, hdbs2, hsd, hsel,
            delete_all_result, hle, hst, hcz]
        · exact get?_set_self dbs pIdx _ hplt
        · intro he
          have : ((cdb.delete_from_domain d "" true).1).domains.length = 0 := by
            rw [he]
            rfl
          omega
        · intro j hj
          injection hj with hj
          omega
        · intro _
          rfl
  · intro s dbs pIdx cdb dcurr curr d n hsel hp hdbs hdst hdget hitems hnd
      hst hget hn
    have hplt := (List.get?_eq_some.mp hdbs).1
    have hdbs2 : dbs[pIdx]? = some cdb := by
      rw [← List.get?_eq_getElem?]
      exact hdbs
    have hsd : s.selected_domain = some d := by
      simp only [TuiState.selected_domain, hdst]
      exact hdget
    have hsc : s.selected_cookie = some n := by
      simp only [TuiState.selected_cookie, hst]
      exact hget
    have hnmem : n ∈ s.current_cookies.items := List.get?_mem hget
    have hcurrlt : curr < s.current_cookies.items.length :=
      (List.get?_eq_some.mp hget).1
    have hlen' : (((cdb.delete_from_domain d n true).1).cookies_for_domain d).length =
        s.current_cookies.items.length - 1 := by
      have h1 : (((cdb.delete_from_domain d n true).1).cookies_for_domain d).length =
          ((((cdb.delete_from_domain d n true).1).cookies_for_domain d).map
            (fun c => c.name)).length := by
        rw [List.length_map]
      rw [h1, names_after_delete cdb d n hn, ← hitems,
        length_filter_ne _ _ hnd hnmem]
    by_cases hle : s.current_cookies.items.length ≤ 1
    · by_cases hdle : s.current_domains.items.length ≤ 1
      · refine ⟨{ s with
            current_cookies := { s.current_cookies with status := none },
            current_domains := { s.current_domains with status := none } },
          dbs.set pIdx (cdb.delete_from_domain d n true).1,
          ?_, ?_, ?_, ?_, ?_, ?_⟩
        · simp [delete_in_current_split, hp, hdbs2, hsd, hsc, hsel,
            delete_named_result cdb d n hn, hle, hdle]
        · exact get?_set_self dbs pIdx _ hplt
        · intro _
          rfl
        · intro j hj
          exact absurd hj (by simp)
        · intro hc
          omega
        · intro _
          exact ⟨rfl, rfl⟩
      · refine ⟨{ s with
            current_cookies := { s.current_cookies with status := none } },
          dbs.set pIdx (cdb.delete_from_domain d n true).1,
          ?_, ?_, ?_, ?_, ?_, ?_⟩
        · simp [delete_in_current_split, hp, hdbs2, hsd, hsc, hsel,
            delete_named_result cdb d n hn, hle, hdle]
        · exact get?_set_self dbs pIdx _ hplt
        · intro _
          rfl
        · intro j hj
          exact absurd hj (by simp)
        · intro hc
          omega
        · intro hc
          exact absurd hc.2 hdle
    · by_cases hcz : curr = 0
      · refine ⟨s, dbs.set pIdx (cdb.delete_from_domain d n true).1,
          ?_, ?_, ?_, ?_, ?_, ?_⟩
        · simp [delete_in_current_split, hp, hdbs2, hsd, hsc, hsel,
            delete_named_result cdb d n hn, hle, hst, hcz]
        · exact get?_set_self dbs pIdx _ hplt
        · intro he
          rw [he] at hlen'
          simp at hlen'
          omega
        · intro j hj
          rw [hst] at hj
          injection hj with hj
          omega
        · intro hc
          omega
        · intro hc
          exact absurd hc.1 hle
      · refine ⟨{ s with current_cookies :=
            { s.current_cookies with status := some (curr - 1) } },
          dbs.set pIdx (cdb.delete_from_domain d n true).1,
          ?_, ?_, ?_, ?_, ?_, ?_⟩
        · simp [delete_in_current_split, hp, hdbs2, hsd, hsc, hsel,
            delete_named_result cdb d n hn, hle, hst, hcz]
        · exact get?_set_self dbs pIdx _ hplt
        · intro he
          rw [he] at hlen'
          simp at hlen'
          omega
        · intro j hj
          injection hj with hj
          omega
        · intro _
          rfl
        · intro hc
          exact absurd hc.1 hle

/-- A store holding two cookies with the same host and the same name but
different paths — real cookie schemas key rows by (host, name, path), so
this shape is loadable. -/
def dupDB : CookieDB := {
  path := "/x/Cookies"
  typing := DbType.Chrome
  cookies := [cookieAX, { cookieAX with path := "/p" }] }

/-- A coherent TUI state at the Cookies level over `dupDB`: the derived
cookie-name list is `["x", "x"]` and its last entry is selected. -/
def dupCookiesState : TuiState := {
  selection := Selection.Cookies
  profiles := { status := some 0, items := [dupDB.path_short "/home/u"] }
  current_domains := { status := some 0, items := dupDB.domains }
  current_cookies := {
    status := some 1
    items := (dupDB.cookies_for_domain "a.com").map (fun c => c.name) }
  search_matches := []
  selected_match := NO_SELECTION
  search_open := false
  search_field := "" }

/-- C4 counterexample: deleting the selected cookie named `x` removes
both rows carrying that name, emptying the domain's cookie list, while
the cursor logic (two items, cursor `1 ≠ 0`) merely decrements the
cursor to `some 0` — the cookie cursor is left pointing past the end of
the now-empty shrunk list instead of being cleared, refuting the claim
as stated. -/
theorem C4_counterexample :
    dupCookiesState.current_cookies.items =
      (dupDB.cookies_for_domain "a.com").map (fun c => c.name) ∧
    delete_in_current_split dupCookiesState [dupDB] true =
      Except.ok
        ({ dupCookiesState with current_cookies := {
            status := some 0
            items := (dupDB.cookies_for_domain "a.com").map (fun c => c.name) } },
         [{ dupDB with cookies := [] }]) ∧
    ({ dupDB with cookies := [] } : CookieDB).cookies_for_domain "a.com" = [] := by
  refine ⟨rfl, rfl, rfl⟩

/-- A coherent TUI state at the Domains level over `sampleDB`, with the
last domain selected. -/
def delDomainsState : TuiState := {
  selection := Selection.Domains
  profiles := { status := some 0, items := [sampleDB.path_short "/home/u"] }
  current_domains := { status := some 1, items := sampleDB.domains }
  current_cookies := { status := none, items := [] }
  search_matches := []
  selected_match := NO_SELECTION
  search_open := false
  search_field := "" }

/-- A coherent TUI state at the Cookies level over `sampleDB`, with the
first domain and its last cookie selected. -/
def delCookiesState : TuiState := {
  selection := Selection.Cookies
  profiles := { status := some 0, items := [sampleDB.path_short "/home/u"] }
  current_domains := { status := some 0, items := sampleDB.domains }
  current_cookies := {
    status := some 1
    items := (sampleDB.cookies_for_domain "a.com").map (fun c => c.name) }
  search_matches := []
  selected_match := NO_SELECTION
  search_open := false
  search_field := "" }

/-- C4 witness: the cursor rebalancing evaluated on concrete coherent
states — deleting the last domain of two, and the last cookie of two. -/
theorem C4_witness :
    (∃ s' dbs',
      delete_in_current_split delDomainsState [sampleDB] true =
        Except.ok (s', dbs') ∧
      dbs'.get? 0 = some (sampleDB.delete_from_domain "b.com" "" true).1 ∧
      (((sampleDB.delete_from_domain "b.com" "" true).1).domains = [] →
        s'.current_domains.status = none) ∧
      (∀ j, s'.current_domains.status = some j →
        j < ((sampleDB.delete_from_domain "b.com" "" true).1).domains.length) ∧
      (1 = delDomainsState.current_domains.items.length - 1 ∧
        1 < delDomainsState.current_domains.items.length →
        s'.current_domains.status = some (1 - 1))) ∧
    (∃ s' dbs',
      delete_in_current_split delCookiesState [sampleDB] true =
        Except.ok (s', dbs') ∧
      dbs'.get? 0 = some (sampleDB.delete_from_domain "a.com" "y" true).1 ∧
      ((((sampleDB.delete_from_domain "a.com" "y" true).1).cookies_for_domain
          "a.com") = [] → s'.current_cookies.status = none) ∧
      (∀ j, s'.current_cookies.status = some j →
        j < (((sampleDB.delete_from_domain "a.com" "y" true).1).cookies_for_domain
          "a.com").length) ∧
      (1 = delCookiesState.current_cookies.items.length - 1 ∧
        1 < delCookiesState.current_cookies.items.length →
        s'.current_cookies.status = some (1 - 1)) ∧
      (delCookiesState.current_cookies.items.length ≤ 1 ∧
        delCookiesState.current_domains.items.length ≤ 1 →
        s'.current_cookies.status = none ∧
        s'.current_domains.status = none)) :=
  ⟨C4_deletion_cursor.1 delDomainsState [sampleDB] 0 sampleDB 1 "b.com"
      rfl rfl (by decide) rfl rfl (by decide),
   C4_deletion_cursor.2 delCookiesState [sampleDB] 0 sampleDB 0 1
      "a.com" "y" rfl rfl (by decide) rfl (by decide) rfl (by decide) rfl
      (by decide) (by decide)⟩

/-! ## C6: a failing interactive deletion -/

/-- C6: when the underlying SQLite delete fails during the `D` key
cascade, `delete_in_current_split` does not report the error and
continue — the `.expect(..)` calls turn the failure into a panic
(modelled as `Except.error` carrying the panic message), which unwinds
out of the interaction loop; `run` only restores the terminal after
`run_ui(..).unwrap()`, so the raw mode is never left on this path.  The
theorem evaluates the code at the failing input, at both deletion
levels. -/
theorem C6_delete_failure_is_panic :
    delete_in_current_split delDomainsState [sampleDB] false =
      Except.error "Failed to delete cookies from domain" ∧
    delete_in_current_split delCookiesState [sampleDB] false =
      Except.error "Failed to delete cookie" := by
  constructor
  · rfl
  · rfl

end Cookiecutter
